import Mathlib

/-!
Verification of `caffe2/python/snapshot.py`: Job, SnapshotManager,
MultiNodeSnapshotManager, JobRunner and epoch_limiter.

The JobRunner control loop (`JobRunner.__call__`) is embedded as a
fuel-based interpreter over an abstract job model, producing the final
epoch number together with a trace of the externally observable actions
(task-group executions, snapshot init/save/load, stop-signal fetches).
The snapshot managers and `Job.add_stop_signal` are embedded as explicit
state-passing functions returning `Except`, where a Python `assert`
failure is an `Except.error`.
-/

namespace Caffe2Snapshot

/-- The externally observable actions performed by `JobRunner.__call__`:
each `client.run(...)` call and each batch of stop-signal fetches. -/
inductive Event : Type where
  | runInitGroup : Event
  | snapshotInit : Event
  | snapshotSave : Nat → Event
  | snapshotLoad : Nat → Event
  | runEpochGroup : Nat → Event
  | fetchStopSignals : Nat → Event
  | runExitGroup : Event
deriving DecidableEq, Repr

/-- The events of one iteration of the `while True` loop in
`JobRunner.__call__`: run `epoch_group`, fetch the stop signals, and,
when a snapshot manager is configured, run `snapshot.save(epoch)`. -/
def epochBlock (snap : Bool) (k : Nat) : List Event :=
  [Event.runEpochGroup k, Event.fetchStopSignals k] ++
    (if snap then [Event.snapshotSave k] else [])

/-- Abstraction of a `Job`'s dynamic behaviour as seen by the loop of
`JobRunner.__call__`: the global state after `init_group` has run, the
state transformer of one `epoch_group` execution, and the list of
stop-signal outputs, each read off from the post-epoch state (a
`TaskOutput.fetch()` of an output written while the epoch ran). -/
structure LoopJob (σ : Type) where
  initState : σ
  epochStep : σ → σ
  stopSignals : List (σ → Bool)

/-- The `while True:` loop of `JobRunner.__call__` (snapshot.py lines
240-254), with explicit fuel since the Python loop need not terminate.
Returns the final value of `epoch` and the trace of loop events. -/
def runnerLoop {σ : Type} (job : LoopJob σ) (snap : Bool) :
    σ → Nat → Nat → Option (Nat × List Event)
  | _, _, 0 => none
  | s, epoch, fuel + 1 =>
      let s2 := job.epochStep s
      if (job.stopSignals.map fun f => f s2).any id then
        some (epoch, epochBlock snap epoch)
      else
        match runnerLoop job snap s2 (epoch + 1) fuel with
        | none => none
        | some p => some (p.1, epochBlock snap epoch ++ p.2)

/-- The events of `JobRunner.__call__` before the epoch loop starts:
`init_group` when starting from scratch, then, when a snapshot manager
is configured, `snapshot.init` followed by `snapshot.save(0)` (from
scratch) or `snapshot.load(resume_from_epoch)` (resuming). -/
def setupEvents (snap : Bool) (resume : Option Nat) : List Event :=
  (if resume.isNone then [Event.runInitGroup] else []) ++
    (if snap then
      Event.snapshotInit ::
        (match resume with
          | none => [Event.snapshotSave 0]
          | some e => [Event.snapshotLoad e])
    else [])

/-- `epoch = 1 if from_scratch else self.resume_from_epoch + 1`
(snapshot.py line 239). -/
def startEpoch (resume : Option Nat) : Nat :=
  match resume with
  | none => 1
  | some e => e + 1

/-- `JobRunner.__call__` (snapshot.py lines 219-256). `snap` is whether
a snapshot manager was passed, `resume` is `resume_from_epoch`, and
`loadState` gives the global state restored by `snapshot.load(e)` (its
effect on state is external to this file). Returns the final `epoch`
and the full event trace, ending with `exit_group`. -/
def JobRunnerCall {σ : Type} (job : LoopJob σ) (snap : Bool) (resume : Option Nat)
    (loadState : Nat → σ) (fuel : Nat) : Option (Nat × List Event) :=
  match runnerLoop job snap
      (match resume with
        | none => job.initState
        | some e => loadState e)
      (startEpoch resume) fuel with
  | none => none
  | some p => some (p.1, setupEvents snap resume ++ p.2 ++ [Event.runExitGroup])

/-- Modelled from the spec: the `CountDown` counter operator lives in the
execution engine, not in the source tree. Per the spec (§4.5, §6, §8) it
decrements a persistent counter each epoch and emits a boolean stop
output; with the counter created at `num_epochs - 1`, the output first
becomes true on epoch number `num_epochs` (§8's end-to-end scenario:
counter starts at 2 and the signal is true at epoch 3). Hence: the output
is true iff the pre-decrement count is already ≤ 0, and the count is
decremented unconditionally. -/
def countDown (c : Int) : Int × Bool :=
  (c - 1, decide (c ≤ 0))

/-- `epoch_limiter(num_epochs)` (snapshot.py lines 259-271) as a
`LoopJob`: `init_group` creates a counter with `init_count =
num_epochs - 1`; `epoch_group` holds a single `CountDown` task whose
boolean output is the job's sole stop signal. The state is the counter
value paired with the `CountDown` task's last output. -/
def epochLimiterJob (numEpochs : Nat) : LoopJob (Int × Bool) where
  initState := ((numEpochs : Int) - 1, false)
  epochStep := fun s => countDown s.1
  stopSignals := [fun s => s.2]

/-- A task output handle (`TaskOutput` from task.py): an opaque handle
that is unresolved until the owning task group has executed, and resolved
to a concrete value afterwards; `value = none` models "unresolved". -/
structure TaskOutput (α : Type) : Type where
  value : Option α
deriving DecidableEq, Repr

/-- Modelled from the spec: `TaskOutput.fetch` lives in
`caffe2/python/task.py`, which is not part of the source tree. Per the
spec (§6: "output.fetch() -> value (only valid post-execution)"; §9: an
output is `Unresolved` until the owning group executes, and accessing
`Unresolved` is the precondition-violation error of §7), fetching an
unresolved output fails. -/
def TaskOutput.fetch {α : Type} (o : TaskOutput α) : Except String α :=
  match o.value with
  | none => Except.error "fetch called before task executed"
  | some v => Except.ok v

/-- The single operator of a net built by `SnapshotManager`:
`GetAllBlobNames`, a `Load` of only the `blob_names` metadata blob, a
`Load` of a full blob list, or a `Save` of a blob list. `db` is the
target checkpoint key and `dbType` the storage format. -/
inductive NetOp : Type where
  | getAllBlobNames : (includeShared : Bool) → NetOp
  | loadNames : (db : String) → (dbType : String) → NetOp
  | loadBlobs : (blobs : List String) → (db : String) → (dbType : String) → NetOp
  | saveBlobs : (blobs : List String) → (db : String) → (dbType : String) → NetOp
deriving DecidableEq, Repr

/-- A task built by `SnapshotManager`: one net holding one operator, plus
the task's output handles (`Task(step=net, outputs=...)`). -/
structure STask : Type where
  op : NetOp
  outputs : List (TaskOutput (List String))
deriving DecidableEq, Repr

/-- State of a `SnapshotManager` (snapshot.py lines 88-94): the `db`
path, the `db_type`, and `_names_output`, which is `None` until `init`
is called and afterwards holds the init task's single output handle. -/
structure SnapshotManager : Type where
  db : String
  dbType : String
  namesOutput : Option (TaskOutput (List String))
deriving DecidableEq, Repr

/-- `'%06d' % n`: decimal rendering of `n`, left-padded with zeros to a
minimum width of 6. -/
def percent06d (n : Nat) : String :=
  String.mk (List.replicate (6 - (Nat.repr n).length) '0' ++ (Nat.repr n).data)

/-- `SnapshotManager._dbname` (snapshot.py lines 125-126):
`'%s.%06d' % (self._db, epoch)`. -/
def SnapshotManager.dbname (m : SnapshotManager) (epoch : Nat) : String :=
  m.db ++ "." ++ percent06d epoch

/-- The checkpoint id exactly as the spec words it (§4.2, §6):
`"{db_path_prefix}.{epoch:06d}"`, fixed-width, zero-padded to 6 digits,
decimal. -/
def specCheckpointId (p : String) (epoch : Nat) : String :=
  p ++ "." ++ String.mk (List.leftpad 6 '0' (Nat.repr epoch).data)

/-- `SnapshotManager.init` (snapshot.py lines 96-119). Asserts that
`nodes` is `None` or a single node; builds a net holding
`GetAllBlobNames(include_shared=False)` when `retrieve_from_epoch` is
`None`, else a `Load` of only `blob_names` from the checkpoint keyed by
`retrieve_from_epoch`; wraps it into a task whose single output is the
`blob_names` handle, caches that (still unresolved) handle as
`_names_output`, and returns the task together with the updated
manager. -/
def SnapshotManager.init (m : SnapshotManager) (nodes : Option (List String))
    (retrieveFromEpoch : Option Nat) : Except String (SnapshotManager × STask) :=
  if nodes = none ∨ ∃ ns, nodes = some ns ∧ ns.length = 1 then
    let op := match retrieveFromEpoch with
      | none => NetOp.getAllBlobNames false
      | some e => NetOp.loadNames (m.dbname e) m.dbType
    let out : TaskOutput (List String) := ⟨none⟩
    Except.ok ({ m with namesOutput := some out }, ⟨op, [out]⟩)
  else
    Except.error "SnapshotManager only supports single node."

/-- `SnapshotManager.blob_list` (snapshot.py lines 121-123):
`assert self._names_output` then `self._names_output.fetch().tolist()`. -/
def SnapshotManager.blob_list (m : SnapshotManager) : Except String (List String) :=
  match m.namesOutput with
  | none => Except.error "assert self._names_output"
  | some out => out.fetch

/-- `SnapshotManager.load` (snapshot.py lines 128-141): builds a task
whose net loads every blob of `blob_list()` from the checkpoint keyed by
`epoch`. `blob_list()` is called at task-build time. -/
def SnapshotManager.load (m : SnapshotManager) (epoch : Nat) : Except String STask :=
  (m.blob_list).map fun bl => ⟨NetOp.loadBlobs bl (m.dbname epoch) m.dbType, []⟩

/-- `SnapshotManager.save` (snapshot.py lines 143-153): builds a task
whose net saves every blob of `blob_list()` into the checkpoint keyed by
`epoch`. `blob_list()` is called at task-build time. -/
def SnapshotManager.save (m : SnapshotManager) (epoch : Nat) : Except String STask :=
  (m.blob_list).map fun bl => ⟨NetOp.saveBlobs bl (m.dbname epoch) m.dbType, []⟩

/-- What `MultiNodeSnapshotManager.init` returns: a task group holding
one node-tagged init task per node on the first call, or nothing (the
bare Python `return` on line 179) on a repeated call. -/
inductive InitResult : Type where
  | taskGroup : List (String × STask) → InitResult
  | nothing : InitResult
deriving DecidableEq, Repr

/-- State of a `MultiNodeSnapshotManager` (snapshot.py lines 162-166):
the shared db path (called `db_prefix` in the source), the db type, and
`_node_managers`, `None` until the first `init` call and afterwards the
list of `(node, SnapshotManager)` pairs. -/
structure MultiNodeSnapshotManager : Type where
  dbRoot : String
  dbType : String
  nodeManagers : Option (List (String × SnapshotManager))
deriving DecidableEq, Repr

/-- The body of `_task_group` specialised to `init` as called on line
187-190: for each recorded `(node, manager)` pair, call the manager's
`init` with `nodes=[node]` — where `node` is the variable leaked from the
preceding `for` loop, i.e. the LAST node — inside that node's scope,
collecting the updated managers and the node-tagged tasks. -/
def collectInits (last : String) (retrieve : Option Nat) :
    List (String × SnapshotManager) →
      Except String (List (String × SnapshotManager) × List (String × STask))
  | [] => Except.ok ([], [])
  | (n, mgr) :: rest =>
      match SnapshotManager.init mgr (some [last]) retrieve with
      | Except.error msg => Except.error msg
      | Except.ok (mgr2, task) =>
          match collectInits last retrieve rest with
          | Except.error msg => Except.error msg
          | Except.ok (mgrs, tasks) =>
              Except.ok ((n, mgr2) :: mgrs, (n, task) :: tasks)

/-- `MultiNodeSnapshotManager.init` (snapshot.py lines 176-190). If
`_node_managers` is already set, asserts the recorded node list equals
`nodes` and returns nothing; otherwise builds one `SnapshotManager` per
node with `db = os.path.join(db_prefix, node)` and returns the task
group of their `init` tasks. With an empty `nodes` list the source
raises (the loop variable `node` on line 189 was never bound). -/
def MultiNodeSnapshotManager.init (m : MultiNodeSnapshotManager)
    (nodes : List String) (retrieveFromEpoch : Option Nat) :
    Except String (MultiNodeSnapshotManager × InitResult) :=
  match m.nodeManagers with
  | some mgrs =>
      if mgrs.map Prod.fst = nodes then Except.ok (m, InitResult.nothing)
      else Except.error "assert [node for node, _ in self._node_managers] == nodes"
  | none =>
      match nodes.getLast? with
      | none => Except.error "UnboundLocalError: local variable referenced before assignment"
      | some last =>
          match collectInits last retrieveFromEpoch
              (nodes.map fun n =>
                (n, SnapshotManager.mk (m.dbRoot ++ "/" ++ n) m.dbType none)) with
          | Except.error msg => Except.error msg
          | Except.ok (mgrs2, tasks) =>
              Except.ok ({ m with nodeManagers := some mgrs2 }, InitResult.taskGroup tasks)

/-- A task created by `Task(outputs=[output], group=epoch_group)` in
`Job.add_stop_signal` (snapshot.py line 76): it wraps a blob reference
and exposes it as a single (initially unresolved) boolean output. -/
structure WrapTask : Type where
  blob : String
  output : TaskOutput Bool
deriving DecidableEq, Repr

/-- The argument passed to `Job.add_stop_signal`: a `BlobReference`, a
`TaskOutput`, or anything else. -/
inductive StopSignalArg : Type where
  | blobRef : String → StopSignalArg
  | taskOutput : TaskOutput Bool → StopSignalArg
  | other : StopSignalArg
deriving DecidableEq, Repr

/-- The parts of a `Job`'s state touched by `add_stop_signal`
(snapshot.py lines 61-65, 74-79): the tasks of `epoch_group` and the
`stop_signals` list. -/
structure JobS : Type where
  epochGroupTasks : List WrapTask
  stopSignals : List (TaskOutput Bool)
deriving DecidableEq, Repr

/-- `Job.add_stop_signal` (snapshot.py lines 74-79): a `BlobReference`
is wrapped into a single-output task registered into `epoch_group` and
that task's output is appended to `stop_signals`; a `TaskOutput` is
appended directly; anything else fails the `isinstance` assert. -/
def JobS.add_stop_signal (j : JobS) (arg : StopSignalArg) : Except String JobS :=
  match arg with
  | StopSignalArg.blobRef b =>
      let t : WrapTask := ⟨b, ⟨none⟩⟩
      Except.ok ⟨j.epochGroupTasks ++ [t], j.stopSignals ++ [t.output]⟩
  | StopSignalArg.taskOutput o =>
      Except.ok ⟨j.epochGroupTasks, j.stopSignals ++ [o]⟩
  | StopSignalArg.other =>
      Except.error "assert isinstance(output, TaskOutput)"

/-- Whether an event is an execution of `epoch_group`. -/
def isEpochRun : Event → Bool
  | Event.runEpochGroup _ => true
  | _ => false

/-- How many times a trace executed `epoch_group`. -/
def countEpochRuns (evs : List Event) : Nat :=
  evs.countP isEpochRun

/-! ## Helper lemmas -/

theorem countEpochRuns_epochBlock (snap : Bool) (k : Nat) :
    countEpochRuns (epochBlock snap k) = 1 := by
  cases snap <;> rfl

theorem countEpochRuns_append (l1 l2 : List Event) :
    countEpochRuns (l1 ++ l2) = countEpochRuns l1 + countEpochRuns l2 :=
  List.countP_append ..

theorem countEpochRuns_flatMap (snap : Bool) :
    ∀ (n p : Nat), countEpochRuns ((List.range' p n).flatMap (epochBlock snap)) = n := by
  intro n
  induction n with
  | zero => intro p; rfl
  | succ k ih =>
      intro p
      rw [List.range'_succ, List.flatMap_cons, countEpochRuns_append,
        countEpochRuns_epochBlock, ih]
      omega

theorem countEpochRuns_setupEvents (snap : Bool) (resume : Option Nat) :
    countEpochRuns (setupEvents snap resume) = 0 := by
  cases snap <;> cases resume <;> rfl

/-- Trace structure of the epoch loop: whenever it terminates, the final
epoch is at least the starting epoch and the trace is the concatenation
of one `epochBlock` per executed epoch, in order. -/
theorem runnerLoop_structure {σ : Type} (job : LoopJob σ) (snap : Bool) :
    ∀ (fuel : Nat) (s : σ) (epoch e : Nat) (evs : List Event),
      runnerLoop job snap s epoch fuel = some (e, evs) →
      epoch ≤ e ∧ evs = (List.range' epoch (e + 1 - epoch)).flatMap (epochBlock snap) := by
  intro fuel
  induction fuel with
  | zero => intro s epoch e evs h; simp [runnerLoop] at h
  | succ n ih =>
      intro s epoch e evs h
      simp only [runnerLoop] at h
      split at h
      · rw [Option.some.injEq, Prod.mk.injEq] at h
        obtain ⟨he, hevs⟩ := h
        subst he
        refine ⟨Nat.le_refl _, ?_⟩
        simp [hevs.symm]
      · split at h
        · exact absurd h (by simp)
        · next p heq =>
            rw [Option.some.injEq, Prod.mk.injEq] at h
            obtain ⟨he, hevs⟩ := h
            obtain ⟨hle, hstruct⟩ := ih _ _ _ _ heq
            subst he
            refine ⟨by omega, ?_⟩
            have h1 : p.1 + 1 - epoch = (p.1 - epoch) + 1 := by omega
            have h2 : p.1 + 1 - (epoch + 1) = p.1 - epoch := by omega
            rw [h1, List.range'_succ, List.flatMap_cons, ← hevs, hstruct, h2]

/-- The epoch loop of the `epoch_limiter` job: started with the counter
at `n ≥ 0` and enough fuel, it runs exactly `n + 1` more epochs and
stops, returning `epoch + n`. -/
theorem runnerLoop_epochLimiter (N : Nat) (snap : Bool) :
    ∀ (n : Nat) (b : Bool) (epoch fuel : Nat), n + 1 ≤ fuel →
      runnerLoop (epochLimiterJob N) snap ((n : Int), b) epoch fuel =
        some (epoch + n, (List.range' epoch (n + 1)).flatMap (epochBlock snap)) := by
  intro n
  induction n with
  | zero =>
      intro b epoch fuel hf
      match fuel, hf with
      | fuel + 1, _ =>
          simp [runnerLoop, epochLimiterJob, countDown]
  | succ k ih =>
      intro b epoch fuel hf
      match fuel, hf with
      | fuel + 1, hf =>
          have hk : k + 1 ≤ fuel := Nat.le_of_succ_le_succ hf
          have hdec : (decide (((k + 1 : Nat) : Int) ≤ 0)) = false := by
            rw [decide_eq_false_iff_not]
            push_cast
            omega
          have hstate : ((k + 1 : Nat) : Int) - 1 = ((k : Nat) : Int) := by
            push_cast; ring
          have ih2 := ih false (epoch + 1) fuel hk
          simp only [epochLimiterJob, countDown] at ih2 ⊢
          simp only [runnerLoop, countDown, List.map_cons, List.map_nil,
            List.any_cons, List.any_nil, id_eq, Bool.or_false]
          rw [hdec, hstate]
          simp only [Bool.false_eq_true, if_false, ih2]
          rw [List.range'_succ epoch (k + 1) 1, List.flatMap_cons]
          have harith : epoch + 1 + k = epoch + (k + 1) := by omega
          rw [harith]

/-- Membership in one epoch block. -/
theorem mem_epochBlock (snap : Bool) (k : Nat) (ev : Event) :
    ev ∈ epochBlock snap k ↔
      (ev = Event.runEpochGroup k ∨ ev = Event.fetchStopSignals k ∨
        (snap = true ∧ ev = Event.snapshotSave k)) := by
  cases snap <;> simp [epochBlock]

/-- Membership in the loop part of a trace. -/
theorem mem_loopTrace (snap : Bool) (p n : Nat) (ev : Event) :
    ev ∈ (List.range' p n).flatMap (epochBlock snap) ↔
      ∃ k, (p ≤ k ∧ k < p + n) ∧ ev ∈ epochBlock snap k := by
  simp [List.mem_flatMap, List.mem_range'_1]

/-- Trace structure of a full `JobRunner.__call__` run: setup events,
then one `epochBlock` per epoch from `startEpoch` to the final epoch,
then `exit_group`. -/
theorem JobRunnerCall_structure {σ : Type} (job : LoopJob σ) (snap : Bool)
    (resume : Option Nat) (loadState : Nat → σ) (fuel e : Nat) (evs : List Event)
    (h : JobRunnerCall job snap resume loadState fuel = some (e, evs)) :
    startEpoch resume ≤ e ∧
      evs = setupEvents snap resume ++
        (List.range' (startEpoch resume) (e + 1 - startEpoch resume)).flatMap
          (epochBlock snap) ++ [Event.runExitGroup] := by
  simp only [JobRunnerCall] at h
  split at h
  · exact absurd h (by simp)
  · next p heq =>
      obtain ⟨hle, hstruct⟩ := runnerLoop_structure job snap fuel _ _ _ _ heq
      rw [Option.some.injEq, Prod.mk.injEq] at h
      obtain ⟨he, hevs⟩ := h
      subst he
      exact ⟨hle, by rw [← hevs, hstruct]⟩

/-- `SnapshotManager.init` on a valid node argument. -/
theorem SnapshotManager.init_eq_ok (m : SnapshotManager) (nodes : Option (List String))
    (retrieve : Option Nat)
    (h : nodes = none ∨ ∃ ns, nodes = some ns ∧ ns.length = 1) :
    m.init nodes retrieve = Except.ok
      ({ m with namesOutput := some ⟨none⟩ },
        ⟨(match retrieve with
          | none => NetOp.getAllBlobNames false
          | some e => NetOp.loadNames (m.dbname e) m.dbType), [⟨none⟩]⟩) := by
  rw [SnapshotManager.init.eq_def, if_pos h]

/-- Closed form of `collectInits`: on single-node arguments every
per-node `init` succeeds, so the whole fold succeeds, updating each
manager's cached names output and producing one init task per node. -/
theorem collectInits_eq (last : String) (r : Option Nat) :
    ∀ pairs : List (String × SnapshotManager),
      collectInits last r pairs = Except.ok
        (pairs.map fun p => (p.1, { p.2 with namesOutput := some ⟨none⟩ }),
         pairs.map fun p => (p.1, (⟨(match r with
             | none => NetOp.getAllBlobNames false
             | some e => NetOp.loadNames (p.2.dbname e) p.2.dbType), [⟨none⟩]⟩ : STask))) := by
  intro pairs
  induction pairs with
  | nil => rfl
  | cons hd tl ih =>
      obtain ⟨n, mgr⟩ := hd
      simp only [collectInits,
        SnapshotManager.init_eq_ok mgr (some [last]) r (Or.inr ⟨[last], rfl, rfl⟩),
        ih, List.map_cons]

/-- The first call to `MultiNodeSnapshotManager.init` records the given
node list as the keys of the node-manager mapping. -/
theorem multiNode_init_first (m m1 : MultiNodeSnapshotManager) (nodes : List String)
    (r : Option Nat) (res : InitResult)
    (hnone : m.nodeManagers = none)
    (h : m.init nodes r = Except.ok (m1, res)) :
    ∃ mgrs, m1.nodeManagers = some mgrs ∧ mgrs.map Prod.fst = nodes := by
  cases hl : nodes.getLast? with
  | none =>
      simp only [MultiNodeSnapshotManager.init, hnone, hl] at h
      exact absurd h (by simp)
  | some last =>
      simp only [MultiNodeSnapshotManager.init, hnone, hl, collectInits_eq] at h
      rw [Except.ok.injEq, Prod.mk.injEq] at h
      obtain ⟨h1, _⟩ := h
      refine ⟨(nodes.map fun n =>
          (n, SnapshotManager.mk (m.dbRoot ++ "/" ++ n) m.dbType none)).map
            (fun p => (p.1, { p.2 with namesOutput := some ⟨none⟩ })), ?_, ?_⟩
      · rw [← h1]
      · rw [List.map_map, List.map_map]
        exact List.map_id nodes

/-! ## Claim theorems -/

/-- C1: for every `num_epochs = N ≥ 1`, a from-scratch `JobRunner` with
no snapshot manager, on a job whose sole stop signal comes from
`epoch_limiter(N)` (counter created in `init_group` with initial count
`N - 1`, a `CountDown` task in `epoch_group` emitting the stop output
each epoch), executes the epoch loop exactly `N` times and returns `N`. -/
theorem C1_epoch_limiter (N fuel : Nat) (loadState : Nat → Int × Bool)
    (hN : 1 ≤ N) (hfuel : N ≤ fuel) :
    ∃ evs, JobRunnerCall (epochLimiterJob N) false none loadState fuel = some (N, evs) ∧
      countEpochRuns evs = N := by
  have hinit : ((N : Int) - 1) = ((N - 1 : Nat) : Int) := by omega
  have hloop := runnerLoop_epochLimiter N false (N - 1) false 1 fuel (by omega)
  simp only [epochLimiterJob] at hloop
  rw [hinit] at hloop
  refine ⟨setupEvents false none ++
    (List.range' 1 (N - 1 + 1)).flatMap (epochBlock false) ++ [Event.runExitGroup], ?_, ?_⟩
  · have hN1 : 1 + (N - 1) = N := by omega
    simp only [JobRunnerCall, epochLimiterJob, startEpoch, hinit, hloop, hN1]
  · rw [countEpochRuns_append, countEpochRuns_append, countEpochRuns_setupEvents,
      countEpochRuns_flatMap]
    have : countEpochRuns [Event.runExitGroup] = 0 := rfl
    omega

/-- Witness for C1 at `N = 3`, `fuel = 3`. -/
theorem C1_epoch_limiter_witness :
    ∃ evs, JobRunnerCall (epochLimiterJob 3) false none (fun _ => ((0 : Int), false)) 3 =
      some (3, evs) ∧ countEpochRuns evs = 3 :=
  C1_epoch_limiter 3 3 (fun _ => ((0 : Int), false)) (by decide) (by decide)

/-- C2: with a snapshot manager configured, a resumed run (resume
epoch `E`) never executes `init_group`, executes `snapshot.load(E)` and
never `snapshot.save(0)`, and the first epoch executed by the loop is
`E + 1`; a from-scratch run executes `init_group` and `snapshot.save(0)`
and its first epoch is `1`. -/
theorem C2_resume_branches {σ : Type} (job : LoopJob σ) (loadState : Nat → σ) (fuel : Nat) :
    (∀ (E e : Nat) (evs : List Event),
        JobRunnerCall job true (some E) loadState fuel = some (e, evs) →
          Event.runInitGroup ∉ evs ∧
          Event.snapshotLoad E ∈ evs ∧
          Event.snapshotSave 0 ∉ evs ∧
          Event.runEpochGroup (E + 1) ∈ evs ∧
          (∀ k, Event.runEpochGroup k ∈ evs → E + 1 ≤ k)) ∧
    (∀ (e : Nat) (evs : List Event),
        JobRunnerCall job true none loadState fuel = some (e, evs) →
          Event.runInitGroup ∈ evs ∧
          Event.snapshotSave 0 ∈ evs ∧
          Event.runEpochGroup 1 ∈ evs ∧
          (∀ k, Event.runEpochGroup k ∈ evs → 1 ≤ k)) := by
  constructor
  · intro E e evs h
    obtain ⟨hle, hevs⟩ := JobRunnerCall_structure job true (some E) loadState fuel e evs h
    have hstart : startEpoch (some E) = E + 1 := rfl
    have hsetup : setupEvents true (some E) = [Event.snapshotInit, Event.snapshotLoad E] := rfl
    rw [hstart] at hle hevs
    rw [hsetup] at hevs
    subst hevs
    refine ⟨?_, ?_, ?_, ?_, ?_⟩
    · simp [mem_loopTrace, mem_epochBlock]
    · simp
    · simp [mem_loopTrace, mem_epochBlock]
    · have hk : Event.runEpochGroup (E + 1) ∈
          (List.range' (E + 1) (e + 1 - (E + 1))).flatMap (epochBlock true) := by
        rw [mem_loopTrace]
        exact ⟨E + 1, ⟨Nat.le_refl _, by omega⟩, by rw [mem_epochBlock]; exact Or.inl rfl⟩
      exact List.mem_append.2 (Or.inl (List.mem_append.2 (Or.inr hk)))
    · intro k hk
      simp [mem_loopTrace, mem_epochBlock] at hk
      omega
  · intro e evs h
    obtain ⟨hle, hevs⟩ := JobRunnerCall_structure job true none loadState fuel e evs h
    have hstart : startEpoch none = 1 := rfl
    have hsetup : setupEvents true none =
        [Event.runInitGroup, Event.snapshotInit, Event.snapshotSave 0] := rfl
    rw [hstart] at hle hevs
    rw [hsetup] at hevs
    subst hevs
    refine ⟨by simp, by simp, ?_, ?_⟩
    · have hk : Event.runEpochGroup 1 ∈
          (List.range' 1 (e + 1 - 1)).flatMap (epochBlock true) := by
        rw [mem_loopTrace]
        exact ⟨1, ⟨Nat.le_refl _, by omega⟩, by rw [mem_epochBlock]; exact Or.inl rfl⟩
      exact List.mem_append.2 (Or.inl (List.mem_append.2 (Or.inr hk)))
    · intro k hk
      simp [mem_loopTrace, mem_epochBlock] at hk
      omega

/-- Witness for C2, both branches, on `epoch_limiter(1)` with one unit
of fuel: the resumed run (from epoch 5) contains `snapshot.load(5)` and
no `init_group` run, the from-scratch run contains `snapshot.save(0)`. -/
theorem C2_resume_branches_witness :
    Event.snapshotLoad 5 ∈ [Event.snapshotInit, Event.snapshotLoad 5,
        Event.runEpochGroup 6, Event.fetchStopSignals 6, Event.snapshotSave 6,
        Event.runExitGroup] ∧
    Event.runInitGroup ∉ ([Event.snapshotInit, Event.snapshotLoad 5,
        Event.runEpochGroup 6, Event.fetchStopSignals 6, Event.snapshotSave 6,
        Event.runExitGroup]) ∧
    Event.snapshotSave 0 ∈ [Event.runInitGroup, Event.snapshotInit, Event.snapshotSave 0,
        Event.runEpochGroup 1, Event.fetchStopSignals 1, Event.snapshotSave 1,
        Event.runExitGroup] :=
  ⟨((C2_resume_branches (epochLimiterJob 1) (fun _ => ((0 : Int), false)) 1).1
      5 6 _ rfl).2.1,
   ((C2_resume_branches (epochLimiterJob 1) (fun _ => ((0 : Int), false)) 1).1
      5 6 _ rfl).1,
   ((C2_resume_branches (epochLimiterJob 1) (fun _ => ((0 : Int), false)) 1).2
      1 _ rfl).2.1⟩

/-- C3: with a snapshot manager configured, every completed run's trace
is, iteration by iteration, `epoch_group` execution, then stop-signal
fetches, then `snapshot.save(epoch)` — and the trace ends with the
terminal epoch's block followed by `exit_group`, so the terminal
epoch's checkpoint save executes before `exit_group` runs. -/
theorem C3_save_before_exit {σ : Type} (job : LoopJob σ) (resume : Option Nat)
    (loadState : Nat → σ) (fuel e : Nat) (evs : List Event)
    (h : JobRunnerCall job true resume loadState fuel = some (e, evs)) :
    evs = setupEvents true resume ++
        (List.range' (startEpoch resume) (e + 1 - startEpoch resume)).flatMap
          (fun k => [Event.runEpochGroup k, Event.fetchStopSignals k,
            Event.snapshotSave k]) ++ [Event.runExitGroup] ∧
      ∃ l, evs = l ++ [Event.runEpochGroup e, Event.fetchStopSignals e,
        Event.snapshotSave e, Event.runExitGroup] := by
  obtain ⟨hle, hevs⟩ := JobRunnerCall_structure job true resume loadState fuel e evs h
  have hblock : epochBlock true = fun k => [Event.runEpochGroup k,
      Event.fetchStopSignals k, Event.snapshotSave k] := rfl
  rw [hblock] at hevs
  refine ⟨hevs, ?_⟩
  have hn : e + 1 - startEpoch resume = (e - startEpoch resume) + 1 := by omega
  have hconcat : List.range' (startEpoch resume) (e + 1 - startEpoch resume) =
      List.range' (startEpoch resume) (e - startEpoch resume) ++ [e] := by
    rw [hn, List.range'_1_concat]
    have he2 : startEpoch resume + (e - startEpoch resume) = e := by omega
    rw [he2]
  refine ⟨setupEvents true resume ++
      (List.range' (startEpoch resume) (e - startEpoch resume)).flatMap
        (fun k => [Event.runEpochGroup k, Event.fetchStopSignals k,
          Event.snapshotSave k]), ?_⟩
  rw [hevs, hconcat, List.flatMap_append]
  simp

/-- Witness for C3 on `epoch_limiter(1)` resumed from epoch 5. -/
theorem C3_save_before_exit_witness :
    ∃ l, ([Event.snapshotInit, Event.snapshotLoad 5, Event.runEpochGroup 6,
        Event.fetchStopSignals 6, Event.snapshotSave 6, Event.runExitGroup]) =
      l ++ [Event.runEpochGroup 6, Event.fetchStopSignals 6,
        Event.snapshotSave 6, Event.runExitGroup] :=
  (C3_save_before_exit (epochLimiterJob 1) (some 5) (fun _ => ((0 : Int), false))
    1 6 _ rfl).2

/-- C9: every completed `JobRunner.__call__` run executes `epoch_group`
at least once, and the returned epoch is at least `1` from scratch and
at least `resume_from_epoch + 1` when resuming. -/
theorem C9_at_least_one_epoch {σ : Type} (job : LoopJob σ) (snap : Bool)
    (resume : Option Nat) (loadState : Nat → σ) (fuel e : Nat) (evs : List Event)
    (h : JobRunnerCall job snap resume loadState fuel = some (e, evs)) :
    1 ≤ countEpochRuns evs ∧
      (resume = none → 1 ≤ e) ∧
      (∀ E, resume = some E → E + 1 ≤ e) := by
  obtain ⟨hle, hevs⟩ := JobRunnerCall_structure job snap resume loadState fuel e evs h
  have hexit : countEpochRuns [Event.runExitGroup] = 0 := rfl
  have hcount : countEpochRuns evs = e + 1 - startEpoch resume := by
    rw [hevs, countEpochRuns_append, countEpochRuns_append, countEpochRuns_setupEvents,
      countEpochRuns_flatMap, hexit]
    omega
  refine ⟨by omega, ?_, ?_⟩
  · intro hr
    subst hr
    have : startEpoch (none : Option Nat) = 1 := rfl
    omega
  · intro E hr
    subst hr
    have : startEpoch (some E) = E + 1 := rfl
    omega

/-- Witness for C9: the from-scratch `epoch_limiter(1)` run executes
`epoch_group` once. -/
theorem C9_at_least_one_epoch_witness :
    1 ≤ countEpochRuns [Event.runInitGroup, Event.runEpochGroup 1,
      Event.fetchStopSignals 1, Event.runExitGroup] :=
  (C9_at_least_one_epoch (epochLimiterJob 1) false none (fun _ => ((0 : Int), false))
    1 1 _ rfl).1

/-- C4: `SnapshotManager.init(nodes, retrieve_from_epoch)` on a valid
node argument builds and returns a single task whose single output is
the blob-name list handle; when `retrieve_from_epoch` is `None` the
task's net is `GetAllBlobNames(include_shared=False)`, otherwise it is a
`Load` of only the name-list blob from the checkpoint keyed by that
epoch; and the task's (unresolved) output is cached as the manager's
names output. -/
theorem C4_snapshot_init (m : SnapshotManager) (nodes : Option (List String))
    (retrieve : Option Nat)
    (h : nodes = none ∨ ∃ n, nodes = some [n]) :
    m.init nodes retrieve = Except.ok
      ({ m with namesOutput := some ⟨none⟩ },
        ⟨(match retrieve with
          | none => NetOp.getAllBlobNames false
          | some e => NetOp.loadNames (m.dbname e) m.dbType), [⟨none⟩]⟩) := by
  refine SnapshotManager.init_eq_ok m nodes retrieve ?_
  rcases h with h | ⟨n, h⟩
  · exact Or.inl h
  · exact Or.inr ⟨[n], h, rfl⟩

/-- Witness for C4: a resuming `init` on one node loads only the
name-list blob from checkpoint key `run.000002`. -/
theorem C4_snapshot_init_witness :
    SnapshotManager.init ⟨"run", "leveldb", none⟩ (some ["a"]) (some 2) = Except.ok
      (⟨"run", "leveldb", some ⟨none⟩⟩,
        ⟨NetOp.loadNames "run.000002" "leveldb", [⟨none⟩]⟩) :=
  C4_snapshot_init ⟨"run", "leveldb", none⟩ (some ["a"]) (some 2) (Or.inr ⟨"a", rfl⟩)

/-- C5: the checkpoint key used by `SnapshotManager`'s `save` and `load`
is exactly the `db` path prefix, a dot, and the epoch in decimal
zero-padded to 6 digits; in particular `save(3)` with prefix `"run"`
addresses key `"run.000003"`. -/
theorem C5_checkpoint_key (p t : String) (bl : List String) (e : Nat) :
    SnapshotManager.dbname ⟨p, t, none⟩ e = specCheckpointId p e ∧
    SnapshotManager.save ⟨p, t, some ⟨some bl⟩⟩ e =
      Except.ok ⟨NetOp.saveBlobs bl (specCheckpointId p e) t, []⟩ ∧
    SnapshotManager.load ⟨p, t, some ⟨some bl⟩⟩ e =
      Except.ok ⟨NetOp.loadBlobs bl (specCheckpointId p e) t, []⟩ ∧
    SnapshotManager.dbname ⟨"run", "leveldb", none⟩ 3 = "run.000003" :=
  ⟨rfl, rfl, rfl, rfl⟩

/-- C6: `blob_list()` called before `init` (no cached names output) or
before init's task has executed (output unresolved) fails with a
precondition error; when it succeeds, the returned list is exactly the
resolved value of the cached names output — never a silently empty or
partial substitute. -/
theorem C6_blob_list_precondition (m : SnapshotManager) :
    (m.namesOutput = none →
      m.blob_list = Except.error "assert self._names_output") ∧
    (m.namesOutput = some ⟨none⟩ →
      m.blob_list = Except.error "fetch called before task executed") ∧
    (∀ l, m.blob_list = Except.ok l →
      ∃ o, m.namesOutput = some o ∧ o.value = some l) := by
  refine ⟨?_, ?_, ?_⟩
  · intro h; rw [SnapshotManager.blob_list.eq_def, h]
  · intro h; rw [SnapshotManager.blob_list.eq_def, h]; rfl
  · intro l h
    cases hm : m.namesOutput with
    | none => rw [SnapshotManager.blob_list.eq_def, hm] at h; exact absurd h (by simp)
    | some o =>
        cases ho : o.value with
        | none =>
            rw [SnapshotManager.blob_list.eq_def, hm] at h
            simp only [TaskOutput.fetch, ho] at h
            exact absurd h (by simp)
        | some v =>
            rw [SnapshotManager.blob_list.eq_def, hm] at h
            simp only [TaskOutput.fetch, ho, Except.ok.injEq] at h
            exact ⟨o, rfl, by rw [ho, h]⟩

/-- Witness for C6: both failure modes at concrete managers. -/
theorem C6_blob_list_precondition_witness :
    SnapshotManager.blob_list ⟨"db", "t", none⟩ =
      Except.error "assert self._names_output" ∧
    SnapshotManager.blob_list ⟨"db", "t", some ⟨none⟩⟩ =
      Except.error "fetch called before task executed" :=
  ⟨(C6_blob_list_precondition ⟨"db", "t", none⟩).1 rfl,
   (C6_blob_list_precondition ⟨"db", "t", some ⟨none⟩⟩).2.1 rfl⟩

/-- C7: once `MultiNodeSnapshotManager.init` has recorded a node set, a
second call with the same node list is a no-op returning nothing and
leaving the manager (hence the per-node mapping) unchanged, and a second
call with a different node list fails. -/
theorem C7_multi_init_idempotent (m0 m1 : MultiNodeSnapshotManager)
    (nodes nodes2 : List String) (r r2 : Option Nat) (res : InitResult)
    (hfresh : m0.nodeManagers = none)
    (hfirst : m0.init nodes r = Except.ok (m1, res)) :
    m1.init nodes r2 = Except.ok (m1, InitResult.nothing) ∧
      (nodes2 ≠ nodes → ∃ msg, m1.init nodes2 r2 = Except.error msg) := by
  obtain ⟨mgrs, hm, hfst⟩ := multiNode_init_first m0 m1 nodes r res hfresh hfirst
  constructor
  · simp only [MultiNodeSnapshotManager.init, hm]
    rw [if_pos hfst]
  · intro hne
    simp only [MultiNodeSnapshotManager.init, hm]
    rw [if_neg (by rw [hfst]; exact fun hh => hne hh.symm)]
    exact ⟨_, rfl⟩

/-- Witness for C7: after `init(["a","b"])`, `init(["a","b"])` again is
a no-op and `init(["a","c"])` fails. -/
theorem C7_multi_init_idempotent_witness :
    MultiNodeSnapshotManager.init
        ⟨"p", "t", some [("a", ⟨"p/a", "t", some ⟨none⟩⟩), ("b", ⟨"p/b", "t", some ⟨none⟩⟩)]⟩
        ["a", "b"] none =
      Except.ok
        (⟨"p", "t", some [("a", ⟨"p/a", "t", some ⟨none⟩⟩), ("b", ⟨"p/b", "t", some ⟨none⟩⟩)]⟩,
          InitResult.nothing) ∧
    (["a", "c"] ≠ ["a", "b"] →
      ∃ msg, MultiNodeSnapshotManager.init
          ⟨"p", "t", some [("a", ⟨"p/a", "t", some ⟨none⟩⟩), ("b", ⟨"p/b", "t", some ⟨none⟩⟩)]⟩
          ["a", "c"] none = Except.error msg) :=
  C7_multi_init_idempotent ⟨"p", "t", none⟩
    ⟨"p", "t", some [("a", ⟨"p/a", "t", some ⟨none⟩⟩), ("b", ⟨"p/b", "t", some ⟨none⟩⟩)]⟩
    ["a", "b"] ["a", "c"] none none
    (InitResult.taskGroup [("a", ⟨NetOp.getAllBlobNames false, [⟨none⟩]⟩),
      ("b", ⟨NetOp.getAllBlobNames false, [⟨none⟩]⟩)])
    rfl rfl

/-- C8: `Job.add_stop_signal` wraps a raw blob reference into a
single-output task appended to `epoch_group` and appends that task's
output to the stop-signal list; appends an existing task-output handle
directly (leaving `epoch_group` unchanged); and fails on anything
else. -/
theorem C8_add_stop_signal (j : JobS) :
    (∀ b, j.add_stop_signal (StopSignalArg.blobRef b) =
        Except.ok ⟨j.epochGroupTasks ++ [⟨b, ⟨none⟩⟩],
          j.stopSignals ++ [WrapTask.output ⟨b, ⟨none⟩⟩]⟩) ∧
    (∀ o, j.add_stop_signal (StopSignalArg.taskOutput o) =
        Except.ok ⟨j.epochGroupTasks, j.stopSignals ++ [o]⟩) ∧
    (∃ msg, j.add_stop_signal StopSignalArg.other = Except.error msg) :=
  ⟨fun _ => rfl, fun _ => rfl, ⟨_, rfl⟩⟩

/-- C10: `load(epoch)` and `save(epoch)` resolve `blob_list()` at
task-build time, so whenever `blob_list()` fails its precondition check,
both fail with the very same error instead of building a task over a
missing name list. -/
theorem C10_load_save_precondition (m : SnapshotManager) (epoch : Nat) (msg : String)
    (h : m.blob_list = Except.error msg) :
    m.load epoch = Except.error msg ∧ m.save epoch = Except.error msg := by
  rw [SnapshotManager.load, SnapshotManager.save, h]
  exact ⟨rfl, rfl⟩

/-- Witness for C10 on a manager whose `init` was never called. -/
theorem C10_load_save_precondition_witness :
    SnapshotManager.load ⟨"db", "t", none⟩ 7 =
      Except.error "assert self._names_output" ∧
    SnapshotManager.save ⟨"db", "t", none⟩ 7 =
      Except.error "assert self._names_output" :=
  C10_load_save_precondition ⟨"db", "t", none⟩ 7 "assert self._names_output" rfl

end Caffe2Snapshot
